import Mathlib

/-!
# Verification of the DSL runner (`src/runner.js`)

A shallow embedding of the tree-walking DSL evaluator: the node shapes
(Literal, Identifier, Assignment, Function, Array, Block), the mutable
bindings map (modelled as an association list threaded through evaluation),
the per-shape rule handlers nested inside `dslRuleHandler`, the dispatcher's
try/catch failure boundary (modelled by `dslStep`, the body of the `try`,
and `catchRes`, the `catch` clause), and the top-level driver `run`.

JS `undefined` (the "no value" marker) is `Option.none`; numbers are `Int`;
errors thrown by handlers are `Except.error` carrying the message string;
`console.error` output is an explicit log (`List String`) accumulated in
evaluation order.  Host operations are external collaborators, so the
development is parametrised by a type `Op` of host operations together with
an application function `applyOp` that receives the (possibly undefined)
first two arguments and either returns a (possibly undefined) result or
raises.
-/

namespace DslRunner

/-- Runtime values of the interpreter: JS numbers, strings, arrays and
host-operation (function) values.  `undefined` is not a `Value`; it is
represented by `Option.none` at every interface. -/
inductive Value (Op : Type) where
  | num : Int → Value Op
  | str : String → Value Op
  | list : List (Value Op) → Value Op
  | op : Op → Value Op

/-- A bindings map (one lexical scope): an association list from names to
stored JS values, where a stored `none` models a key explicitly bound to
`undefined` (JS property access cannot distinguish it from an absent key). -/
abbrev Bindings (Op : Type) := List (String × Option (Value Op))

/-- An AST node (`DslNode`).  One constructor per recognized `shape`, plus
`other` for nodes whose shape is unrecognized by the dispatcher. -/
inductive DslNode (Op : Type) where
  | literal (id : Nat) (value : Value Op)
  | identifier (id : Nat) (name : String)
  | assignment (id : Nat) (name : String) (value : DslNode Op)
  | function (id : Nat) (callee : DslNode Op) (args : List (DslNode Op))
  | array (id : Nat) (nodes : List (DslNode Op))
  | block (id : Nat) (nodes : List (DslNode Op)) (bindings : Bindings Op)
  | other (id : Nat)

/-- The `id` field of a node. -/
def DslNode.nodeId {Op : Type} : DslNode Op → Nat
  | .literal i _ => i
  | .identifier i _ => i
  | .assignment i _ _ => i
  | .function i _ _ => i
  | .array i _ => i
  | .block i _ _ => i
  | .other i => i

/-- The `name` property of a node: present on Identifier and Assignment
nodes (the shapes the data model gives a `name` field), absent (`undefined`)
on the rest. -/
def DslNode.nameField {Op : Type} : DslNode Op → Option String
  | .identifier _ n => some n
  | .assignment _ n _ => some n
  | _ => none

/-- The JS test node.shape === Block. -/
def DslNode.isBlock {Op : Type} : DslNode Op → Bool
  | .block _ _ _ => true
  | _ => false

/-- The JS property read b[name]: the value stored under the first
occurrence of the key, `none` (undefined) when the key is absent or
explicitly bound to undefined. -/
def lookupB {Op : Type} : Bindings Op → String → Option (Value Op)
  | [], _ => none
  | (m, w) :: rest, n => if m == n then w else lookupB rest n

/-- The JS property write b[name] = v: overwrite the existing key in place,
or append a new key (JS objects keep insertion order). -/
def setB {Op : Type} : Bindings Op → String → Option (Value Op) → Bindings Op
  | [], n, v => [(n, v)]
  | (m, w) :: rest, n, v =>
      if m == n then (n, v) :: rest else (m, w) :: setB rest n v

/-- The JS merge Object.assign of an empty object, pB and bs: a fresh copy
of `pB` with every key of `bs` written over it, in order. -/
def assignB {Op : Type} (pB : Bindings Op) (bs : Bindings Op) : Bindings Op :=
  bs.foldl (fun acc p => setB acc p.1 p.2) pB

/-- The JS read b[callee.name], where the callee may lack a name property. -/
def lookupName {Op : Type} (b : Bindings Op) : Option String → Option (Value Op)
  | some n => lookupB b n
  | none => none

/-- The JS test typeof v === number. -/
def isNumeric {Op : Type} : Value Op → Bool
  | .num _ => true
  | _ => false

/-- The JS test typeof v === function, on a possibly-undefined value. -/
def isOpVal {Op : Type} : Option (Value Op) → Bool
  | some (.op _) => true
  | _ => false

/-- Outcome of one (caught) evaluation: the bindings map after the call (the
JS map is mutated in place, so we thread it), the `console.error` lines
emitted during the call, and the produced value (`none` = undefined). -/
structure Res (Op : Type) where
  bindings : Bindings Op
  log : List String
  value : Option (Value Op)

/-- Outcome of the dispatcher's `try` body: like `Res`, but the result is
either a value or a raised error (whose effects so far persist). -/
structure HRes (Op : Type) where
  bindings : Bindings Op
  log : List String
  out : Except String (Option (Value Op))

/-- The dispatcher's `catch (e)` clause: a raised error is logged via
`console.error` and converted to `undefined`; a normal result passes
through. -/
def catchRes {Op : Type} : HRes Op → Res Op
  | ⟨b, log, .ok v⟩ => ⟨b, log, v⟩
  | ⟨b, log, .error e⟩ => ⟨b, log ++ [e], none⟩

/-- The `TypeMismatch` message thrown by the literal handler. -/
def literalMsg (nid : Nat) : String :=
  "literalHandler(): node " ++ toString nid ++ " not type number"

/-- The `InvalidPosition` message thrown by the assignment handler. -/
def invalidParentMsg (nid : Nat) : String :=
  "assignmentRuleHandler: node " ++ toString nid ++ " invalid parent"

/-- The `NotAFunction` message thrown by the function handler. -/
def notFunctionMsg (nid : Nat) : String :=
  "functionRuleHandler(): node " ++ toString nid ++
    " invalid operation: not type function error"

/-- The `OperationError` message wrapping an error raised by an invoked host
operation. -/
def operationErrMsg (nid : Nat) (e : String) : String :=
  "functionRuleHandler(): node " ++ toString nid ++ " invalid operation: " ++ e

/-- Handler literalRuleHandler(n): return the value field when it is a
number, otherwise throw. -/
def literalRuleHandler {Op : Type} (nid : Nat) (value : Value Op) :
    Except String (Value Op) :=
  match value with
  | .num k => .ok (.num k)
  | _ => .error (literalMsg nid)

/-- Handler identifierRuleHandler(n, b): return b[n.name]. -/
def identifierRuleHandler {Op : Type} (name : String) (b : Bindings Op) :
    Option (Value Op) :=
  lookupB b name

section Eval

variable {Op : Type}
variable (applyOp : Op → Option (Value Op) → Option (Value Op) →
  Except String (Option (Value Op)))

mutual

/-- The body of `dslRuleHandler`'s `try`: dispatch on `node.shape` to the
matching rule handler.  The Literal and Identifier handlers are the
standalone functions above; the Assignment, Function, Block and Array
handlers (which recurse through the dispatcher) are inlined here exactly as
they are nested inside `dslRuleHandler` in the source, with the per-shape
list loops split off as the mutual functions below.  Recursive occurrences
of `dslRuleHandler` appear as `catchRes (dslStep ..)`. -/
def dslStep (node pN : DslNode Op) (b : Bindings Op) : HRes Op :=
  match node with
  | .block _ ns bs =>
      /- blockRuleHandler(pN, pB): child bindings are a one-time copy of the
         parent map overlaid with the block's own bindings; the tracker `rB`
         starts at 0; the parent map is returned untouched. -/
      let cB := assignB b bs
      let r := blockRuleNodes node ns cB (Value.num 0)
      ⟨b, r.1, .ok (some r.2)⟩
  | .assignment i name value =>
      /- assignmentRuleHandler(n, pN, b): legal only when the parent node is
         a Block; evaluates the right-hand side through the dispatcher, binds
         it when defined, and returns `Bindings[n.name]`. -/
      if pN.isBlock then
        let r := catchRes (dslStep value node b)
        let b' := match r.value with
          | some v => setB r.bindings name (some v)
          | none => r.bindings
        ⟨b', r.log, .ok (lookupB b' name)⟩
      else
        ⟨b, [], .error (invalidParentMsg i)⟩
  | .array _ ns =>
      /- arrayRuleHandler(pN, b): evaluate each child, keep defined results. -/
      let r := arrayRuleNodes node ns b
      ⟨r.1, r.2.1, .ok (some (.list r.2.2))⟩
  | .function i callee args =>
      /- functionRuleHandler(n, b): evaluate the args via
         executeCalleeAndArgs, look up `b[callee.name]`, require it to be a
         function, apply it to the first two evaluated arguments, wrapping
         any error the operation raises. -/
      let r := executeCalleeAndArgs node args b
      match lookupName r.1 callee.nameField with
      | some (.op f) =>
          match applyOp f (r.2.2.getD 0 none) (r.2.2.getD 1 none) with
          | .ok v => ⟨r.1, r.2.1, .ok v⟩
          | .error e => ⟨r.1, r.2.1, .error (operationErrMsg i e)⟩
      | _ =>
          ⟨r.1, r.2.1, .error (notFunctionMsg i)⟩
  | .literal i v =>
      match literalRuleHandler i v with
      | .ok w => ⟨b, [], .ok (some w)⟩
      | .error e => ⟨b, [], .error e⟩
  | .identifier _ name => ⟨b, [], .ok (identifierRuleHandler name b)⟩
  | .other _ => ⟨b, [], .ok none⟩
termination_by structural node

/-- The argument loop of `executeCalleeAndArgs(N, B)`: evaluate each element
of `args` through the dispatcher, left to right, with the Function node as
parent, threading the bindings map; collect the evaluated (possibly
undefined) values in order. -/
def executeCalleeAndArgs (pN : DslNode Op) (args : List (DslNode Op))
    (b : Bindings Op) :
    Bindings Op × List String × List (Option (Value Op)) :=
  match args with
  | [] => (b, [], [])
  | c :: rest =>
      let r := catchRes (dslStep c pN b)
      let r2 := executeCalleeAndArgs pN rest r.bindings
      (r2.1, r.log ++ r2.2.1, r.value :: r2.2.2)
termination_by structural args

/-- The child loop of `blockRuleHandler`: evaluate each child with the Block
node as parent, threading the child bindings map; a defined result
overwrites the tracker `rB`, an undefined one leaves it. -/
def blockRuleNodes (pN : DslNode Op) (ns : List (DslNode Op))
    (cB : Bindings Op) (rB : Value Op) : List String × Value Op :=
  match ns with
  | [] => ([], rB)
  | c :: rest =>
      let r := catchRes (dslStep c pN cB)
      let rB' := match r.value with
        | some v => v
        | none => rB
      let r2 := blockRuleNodes pN rest r.bindings rB'
      (r.log ++ r2.1, r2.2)
termination_by structural ns

/-- The child loop of `arrayRuleHandler`: evaluate each child with the Array
node as parent, threading the bindings map; push only defined results. -/
def arrayRuleNodes (pN : DslNode Op) (ns : List (DslNode Op))
    (b : Bindings Op) : Bindings Op × List String × List (Value Op) :=
  match ns with
  | [] => (b, [], [])
  | c :: rest =>
      let r := catchRes (dslStep c pN b)
      let r2 := arrayRuleNodes pN rest r.bindings
      let vs := match r.value with
        | some v => v :: r2.2.2
        | none => r2.2.2
      (r2.1, r.log ++ r2.2.1, vs)
termination_by structural ns

end

/-- The dispatcher dslRuleHandler(node, parentNode, bindings): the try body
`dslStep` wrapped in the failure boundary `catchRes`. -/
def dslRuleHandler (node pN : DslNode Op) (b : Bindings Op) : Res Op :=
  catchRes (dslStep applyOp node pN b)

/-- The sequence of values produced by evaluating `ns` in order through the
dispatcher, threading the bindings map (the per-child results observed by
the Block, Array and argument loops). -/
def childValues (pN : DslNode Op) (ns : List (DslNode Op)) (b : Bindings Op) :
    List (Option (Value Op)) :=
  match ns with
  | [] => []
  | c :: rest =>
      let r := dslRuleHandler applyOp c pN b
      r.value :: childValues pN rest r.bindings

end Eval

/-- The value tracker of the block rule, abstractly: the last defined value
in `vs`, or the default `d` when every element is undefined. -/
def lastDefinedOr {Op : Type} (d : Value Op) (vs : List (Option (Value Op))) :
    Value Op :=
  vs.foldl
    (fun acc v =>
      match v with
      | some w => w
      | none => acc) d

/-- The root AST object handed to `run`: top-level `nodes` and the root
`bindings` (how host operations are injected). -/
structure Ast (Op : Type) where
  nodes : List (DslNode Op)
  bindings : Bindings Op

/-- Modelled from the spec: the tests that construct the root AST object are
not under `src/`.  `run` passes the root object itself as the `parentNode`
of every top-level node, and the only thing the evaluator reads off a parent
is its `shape` (the Assignment position check); §4.8 of the spec states that
top-level assignments are visible to later top-level siblings, "mirroring
block semantics at the program level", so the root object is modelled as a
Block-shaped node carrying the same nodes and bindings. -/
def Ast.asNode {Op : Type} (a : Ast Op) : DslNode Op :=
  .block 0 a.nodes a.bindings

section Run

variable {Op : Type}
variable (applyOp : Op → Option (Value Op) → Option (Value Op) →
  Except String (Option (Value Op)))

/-- The JS object write rMap[id] = v on the result map. -/
def setEntry {Op : Type} : List (Nat × Value Op) → Nat → Value Op →
    List (Nat × Value Op)
  | [], k, v => [(k, v)]
  | (m, w) :: rest, k, v =>
      if m == k then (k, v) :: rest else (m, w) :: setEntry rest k v

/-- The loop of `run`: evaluate each top-level node against the root
bindings (threaded, so earlier top-level assignments are seen by later
siblings), and record `id -> value` when the id is requested and the value
is defined. -/
def runNodes (parent : DslNode Op) (interestIds : List Nat) :
    List (DslNode Op) → Bindings Op → List (Nat × Value Op) →
    List (Nat × Value Op) × List String
  | [], _, rMap => (rMap, [])
  | c :: rest, b, rMap =>
      let r := dslRuleHandler applyOp c parent b
      let rMap' :=
        if interestIds.contains c.nodeId then
          match r.value with
          | some v => setEntry rMap c.nodeId v
          | none => rMap
        else rMap
      let r2 := runNodes parent interestIds rest r.bindings rMap'
      (r2.1, r.log ++ r2.2)

/-- The driver run(ast, interestIds).  Returns the result map together with
the diagnostics logged during the pass. -/
def run (ast : Ast Op) (interestIds : List Nat) :
    List (Nat × Value Op) × List String :=
  runNodes applyOp ast.asNode interestIds ast.nodes ast.bindings []

end Run

/-- A concrete host-operation alphabet for witnesses: `add` is the binary
addition `(x, y) => x + y` from the spec's end-to-end scenario, `undef` is a
host operation returning `undefined`, `boom` is a host operation that
raises. -/
inductive HostOp where
  | add
  | undef
  | boom

/-- Application of the concrete host operations. -/
def applyHost : HostOp → Option (Value HostOp) → Option (Value HostOp) →
    Except String (Option (Value HostOp))
  | .add, some (.num x), some (.num y) => .ok (some (.num (x + y)))
  | .add, _, _ => .ok (some (.str "NaN"))
  | .undef, _, _ => .ok none
  | .boom, _, _ => .error "boom"

section Theorems

variable {Op : Type}
variable (applyOp : Op → Option (Value Op) → Option (Value Op) →
  Except String (Option (Value Op)))

/-- Reading back a key just written. -/
theorem lookupB_setB (b : Bindings Op) (n : String) (v : Option (Value Op)) :
    lookupB (setB b n v) n = v := by
  induction b with
  | nil => simp [setB, lookupB]
  | cons hd tl ih =>
      obtain ⟨m, w⟩ := hd
      by_cases h : m = n
      · subst h
        simp [setB, lookupB]
      · simp [setB, lookupB, h, ih]

/-- The dispatcher is the caught step. -/
theorem dslRuleHandler_def (node pN : DslNode Op) (b : Bindings Op) :
    dslRuleHandler applyOp node pN b = catchRes (dslStep applyOp node pN b) :=
  rfl

/-- Every element of a child list is evaluated: the produced value sequence
has one entry per child. -/
theorem childValues_length (pN : DslNode Op) (ns : List (DslNode Op))
    (b : Bindings Op) :
    (childValues applyOp pN ns b).length = ns.length := by
  induction ns generalizing b with
  | nil => simp [childValues]
  | cons c rest ih => simp [childValues, ih]

/-- The argument loop produces exactly the sequential left-to-right child
evaluation results. -/
theorem executeCalleeAndArgs_vals (pN : DslNode Op) (ns : List (DslNode Op))
    (b : Bindings Op) :
    (executeCalleeAndArgs applyOp pN ns b).2.2 = childValues applyOp pN ns b := by
  induction ns generalizing b with
  | nil => simp [executeCalleeAndArgs, childValues]
  | cons c rest ih => simp [executeCalleeAndArgs, childValues, dslRuleHandler, ih]

/-- The block loop returns the last defined child value, or its tracker
default. -/
theorem blockRuleNodes_value (pN : DslNode Op) (ns : List (DslNode Op))
    (cB : Bindings Op) (rB : Value Op) :
    (blockRuleNodes applyOp pN ns cB rB).2 =
      lastDefinedOr rB (childValues applyOp pN ns cB) := by
  induction ns generalizing cB rB with
  | nil => simp [blockRuleNodes, childValues, lastDefinedOr]
  | cons c rest ih =>
      simp only [blockRuleNodes, childValues, dslRuleHandler, lastDefinedOr,
        List.foldl_cons]
      cases h : (catchRes (dslStep applyOp c pN cB)).value with
      | none =>
          have hrec := ih (catchRes (dslStep applyOp c pN cB)).bindings rB
          simpa [h, lastDefinedOr] using hrec
      | some v =>
          have hrec := ih (catchRes (dslStep applyOp c pN cB)).bindings v
          simpa [h, lastDefinedOr] using hrec

/-- Unfolding of the assignment rule under a Block parent: the right-hand
side is evaluated in the current scope with the assignment node as parent,
a defined result is written into the scope, and the handler returns the
current entry under the assigned name. -/
theorem dslRuleHandler_assignment (i : Nat) (name : String)
    (rhs pN : DslNode Op) (b : Bindings Op) (hp : pN.isBlock = true) :
    dslRuleHandler applyOp (.assignment i name rhs) pN b =
      (match dslRuleHandler applyOp rhs (.assignment i name rhs) b with
       | ⟨b₂, log₂, some v⟩ =>
           ⟨setB b₂ name (some v), log₂, lookupB (setB b₂ name (some v)) name⟩
       | ⟨b₂, log₂, none⟩ => ⟨b₂, log₂, lookupB b₂ name⟩) := by
  simp only [dslRuleHandler, dslStep, hp, if_true]
  cases h : catchRes (dslStep applyOp rhs (.assignment i name rhs) b) with
  | mk b₂ log₂ v =>
      cases v <;> simp [h, catchRes]

/-- Unfolding of the dispatcher on an Identifier node. -/
theorem dslRuleHandler_identifier (i : Nat) (name : String) (pN : DslNode Op)
    (b : Bindings Op) :
    dslRuleHandler applyOp (.identifier i name) pN b = ⟨b, [], lookupB b name⟩ := by
  rw [dslRuleHandler_def]
  simp [dslStep, catchRes, identifierRuleHandler]

/-- Unfolding of the dispatcher on a Block node: the parent map is returned
untouched and the block's value is the final tracker of the child loop, run
on the copy-and-overlay child scope. -/
theorem dslRuleHandler_block (i : Nat) (ns : List (DslNode Op))
    (bs : Bindings Op) (pN : DslNode Op) (b : Bindings Op) :
    dslRuleHandler applyOp (.block i ns bs) pN b =
      ⟨b,
       (blockRuleNodes applyOp (.block i ns bs) ns (assignB b bs) (.num 0)).1,
       some (blockRuleNodes applyOp (.block i ns bs) ns
         (assignB b bs) (.num 0)).2⟩ := by
  rw [dslRuleHandler_def]
  simp [dslStep, catchRes]

/-- Unfolding of the assignment rule under a Block parent when the
right-hand side produced a defined value: the value is written into the
current scope and returned. -/
theorem dslRuleHandler_assignment_some (i : Nat) (name : String)
    (rhs pN : DslNode Op) (b : Bindings Op) (v : Value Op)
    (hp : pN.isBlock = true)
    (hv : (dslRuleHandler applyOp rhs (.assignment i name rhs) b).value
      = some v) :
    dslRuleHandler applyOp (.assignment i name rhs) pN b =
      ⟨setB (dslRuleHandler applyOp rhs
          (.assignment i name rhs) b).bindings name (some v),
       (dslRuleHandler applyOp rhs (.assignment i name rhs) b).log,
       some v⟩ := by
  rw [dslRuleHandler_assignment applyOp i name rhs pN b hp]
  cases h : dslRuleHandler applyOp rhs (.assignment i name rhs) b with
  | mk b₂ log₂ w =>
      have hw : w = some v := by rw [h] at hv; exact hv
      subst hw
      simp [lookupB_setB]

/-- C1: for the program whose top-level nodes are an Assignment (id 1)
binding a to the Literal 2 and a Function (id 2) calling add on the
Identifier a and the Literal 3, with root bindings mapping add to the binary
addition operation, run with interestIds = [2] returns exactly the mapping
sending 2 to 5. -/
theorem run_scenario_add_returns_five :
    (run applyHost
      ⟨[.assignment 1 "a" (.literal 10 (.num 2)),
        .function 2 (.identifier 11 "add")
          [.identifier 12 "a", .literal 13 (.num 3)]],
       [("add", some (.op .add))]⟩ [2]).1 = [(2, .num 5)] := by
  simp [run, runNodes, Ast.asNode, dslRuleHandler, dslStep, catchRes,
    executeCalleeAndArgs, blockRuleNodes, arrayRuleNodes, literalRuleHandler,
    identifierRuleHandler, lookupB, setB, assignB, lookupName, setEntry,
    DslNode.nodeId, DslNode.isBlock, DslNode.nameField, applyHost]

/-- C2 counterexample: an Assignment under a Block parent whose right-hand
side produces no value (first conjunct), in a scope that already binds the
same name a to 7, evaluates to the stale value 7 (second conjunct) — not to
NoValue as the claim states.  The source returns Bindings[n.name] even when
nothing was bound by this assignment. -/
theorem assignment_returns_stale_binding :
    (dslRuleHandler applyHost (.literal 6 (.str "x"))
        (.assignment 5 "a" (.literal 6 (.str "x")))
        [("a", some (.num 7))]).value = none ∧
    (dslRuleHandler applyHost (.assignment 5 "a" (.literal 6 (.str "x")))
        (.block 0 [] []) [("a", some (.num 7))]).value = some (.num 7) := by
  constructor <;>
    simp [dslRuleHandler, dslStep, catchRes, literalRuleHandler, lookupB,
      DslNode.isBlock]

/-- C2 (amended): for every Assignment node evaluated with a Block parent,
the assignment evaluator returns the value just bound when the right-hand
side produced a defined value; when the right-hand side produced no value it
returns whatever the current scope then holds under the assignment's name —
NoValue only when that name is unbound (or bound to undefined). -/
theorem assignment_return_value_amended (i : Nat) (name : String)
    (rhs pN : DslNode Op) (b : Bindings Op) (hp : pN.isBlock = true) :
    (dslRuleHandler applyOp (.assignment i name rhs) pN b).value =
      (match (dslRuleHandler applyOp rhs (.assignment i name rhs) b).value with
       | some v => some v
       | none =>
           lookupB (dslRuleHandler applyOp rhs
             (.assignment i name rhs) b).bindings name) := by
  rw [dslRuleHandler_assignment applyOp i name rhs pN b hp]
  cases h : dslRuleHandler applyOp rhs (.assignment i name rhs) b with
  | mk b₂ log₂ v =>
      cases v <;> simp [h, lookupB_setB]

/-- Witness for the amended C2, at the counterexample's own input: the
parent is a Block, and the assignment's result is the scope's current entry
for a (the stale 7) because the right-hand side produced no value. -/
theorem assignment_return_value_amended_witness :
    (DslNode.block 0 [] [] : DslNode HostOp).isBlock = true ∧
    (dslRuleHandler applyHost (.assignment 5 "a" (.literal 6 (.str "x")))
        (.block 0 [] []) [("a", some (.num 7))]).value =
      (match (dslRuleHandler applyHost (.literal 6 (.str "x"))
          (.assignment 5 "a" (.literal 6 (.str "x")))
          [("a", some (.num 7))]).value with
       | some v => some v
       | none =>
           lookupB (dslRuleHandler applyHost (.literal 6 (.str "x"))
             (.assignment 5 "a" (.literal 6 (.str "x")))
             [("a", some (.num 7))]).bindings "a") :=
  ⟨rfl, assignment_return_value_amended applyHost 5 "a"
    (.literal 6 (.str "x")) (.block 0 [] []) [("a", some (.num 7))] rfl⟩

/-- C3: any error raised by the selected rule handler (including the wrapped
re-raise of a host-operation failure from deeper recursion) is caught at
that dispatcher invocation: the effects so far persist, one diagnostic (the
thrown message, which at every throw site names the failing node's id) is
appended to the error log, and the node's result becomes NoValue.  Since the
dispatcher and the driver are total functions into plain results, no error
ever escapes run. -/
theorem dispatcher_catches_handler_errors (node pN : DslNode Op)
    (b b' : Bindings Op) (log : List String) (e : String)
    (h : dslStep applyOp node pN b = ⟨b', log, .error e⟩) :
    dslRuleHandler applyOp node pN b = ⟨b', log ++ [e], none⟩ := by
  rw [dslRuleHandler_def, h]
  rfl

/-- Witness for C3: a Function node whose host operation raises; the wrapped
OperationError is caught by the dispatcher, logged, and turned into
NoValue. -/
theorem dispatcher_catches_handler_errors_witness :
    dslStep applyHost (.function 7 (.identifier 8 "f") [.literal 9 (.num 1)])
        (.other 0) [("f", some (.op .boom))] =
      ⟨[("f", some (.op .boom))], [], .error (operationErrMsg 7 "boom")⟩ ∧
    dslRuleHandler applyHost
        (.function 7 (.identifier 8 "f") [.literal 9 (.num 1)])
        (.other 0) [("f", some (.op .boom))] =
      ⟨[("f", some (.op .boom))], [] ++ [operationErrMsg 7 "boom"], none⟩ :=
  ⟨by simp [dslStep, catchRes, executeCalleeAndArgs, literalRuleHandler,
      lookupName, lookupB, DslNode.nameField, applyHost],
   dispatcher_catches_handler_errors applyHost _ _ _ _ _ _
    (by simp [dslStep, catchRes, executeCalleeAndArgs, literalRuleHandler,
      lookupName, lookupB, DslNode.nameField, applyHost])⟩

/-- C5: evaluating an Assignment node whose immediate parent is not a Block
(for example a Function argument) leaves the bindings untouched (no binding
is added), logs exactly the InvalidPosition diagnostic, and produces
NoValue; the error is already absorbed at this dispatcher level, so it never
reaches the run boundary. -/
theorem assignment_invalid_position (i : Nat) (name : String)
    (rhs pN : DslNode Op) (b : Bindings Op) (hp : pN.isBlock = false) :
    dslRuleHandler applyOp (.assignment i name rhs) pN b =
      ⟨b, [invalidParentMsg i], none⟩ := by
  simp [dslRuleHandler, dslStep, hp, catchRes]

/-- Witness for C5: an Assignment appearing as a Function argument fails
with InvalidPosition and contributes no value. -/
theorem assignment_invalid_position_witness :
    (DslNode.function 1 (.identifier 2 "f")
        [.assignment 3 "a" (.literal 4 (.num 1))] : DslNode HostOp).isBlock
      = false ∧
    dslRuleHandler applyHost (.assignment 3 "a" (.literal 4 (.num 1)))
        (.function 1 (.identifier 2 "f")
          [.assignment 3 "a" (.literal 4 (.num 1))]) [] =
      ⟨[], [invalidParentMsg 3], none⟩ :=
  ⟨rfl, assignment_invalid_position applyHost 3 "a" (.literal 4 (.num 1))
    (.function 1 (.identifier 2 "f")
      [.assignment 3 "a" (.literal 4 (.num 1))]) [] rfl⟩

/-- C9: a Literal node with a numeric value evaluates to exactly that value
(no diagnostic, bindings untouched); a Literal node with a non-numeric value
logs the TypeMismatch diagnostic and contributes no value. -/
theorem literal_numeric_or_diagnostic (i : Nat) (v : Value Op)
    (pN : DslNode Op) (b : Bindings Op) :
    dslRuleHandler applyOp (.literal i v) pN b =
      if isNumeric v then ⟨b, [], some v⟩ else ⟨b, [literalMsg i], none⟩ := by
  cases v <;>
    simp [dslRuleHandler, dslStep, literalRuleHandler, isNumeric, catchRes]

/-- C6: a Block evaluates to a defined value, namely the most recent defined
value produced by its children in order (a child producing NoValue does not
overwrite the tracker), or the zero default when the block has no children
or every child produced NoValue — never NoValue, never an error. -/
theorem block_returns_last_defined_or_zero (i : Nat) (ns : List (DslNode Op))
    (bs : Bindings Op) (pN : DslNode Op) (b : Bindings Op) :
    (dslRuleHandler applyOp (.block i ns bs) pN b).value =
      some (lastDefinedOr (.num 0)
        (childValues applyOp (.block i ns bs) ns (assignB b bs))) := by
  rw [dslRuleHandler_block]
  simp [blockRuleNodes_value]

/-- C4: evaluating a Block leaves the parent bindings mapping unchanged
(first conjunct), so no name bound inside the block resolves differently in
the parent scope after the block finishes (second conjunct); and the child
scope is the one-time copy-and-overlay of the parent scope, in which an
assignment is visible to a later sibling of the same block: a block whose
children are an Assignment of x followed by the Identifier x evaluates to
the value the assignment bound (third conjunct). -/
theorem block_scope_isolation (i j k : Nat) (x : String)
    (ns : List (DslNode Op)) (bs : Bindings Op) (rhs pN : DslNode Op)
    (b : Bindings Op) (v : Value Op)
    (hv : (dslRuleHandler applyOp rhs (.assignment j x rhs)
        (assignB b bs)).value = some v) :
    (dslRuleHandler applyOp (.block i ns bs) pN b).bindings = b ∧
    (∀ nm, lookupB (dslRuleHandler applyOp (.block i ns bs) pN b).bindings nm
      = lookupB b nm) ∧
    (dslRuleHandler applyOp
        (.block i [.assignment j x rhs, .identifier k x] bs) pN b).value
      = some v := by
  refine ⟨?_, ?_, ?_⟩
  · rw [dslRuleHandler_block]
  · rw [dslRuleHandler_block]
    intro nm
    rfl
  · have h1 := dslRuleHandler_assignment_some applyOp j x rhs
      (.block i [.assignment j x rhs, .identifier k x] bs)
      (assignB b bs) v rfl hv
    rw [dslRuleHandler_block]
    simp only [blockRuleNodes, ← dslRuleHandler_def]
    rw [h1, dslRuleHandler_identifier]
    simp [lookupB_setB]

/-- Witness for C4: a block assigning 42 to x and then reading x back
evaluates to 42, while the parent scope (binding p to 1) is untouched by
block evaluation. -/
theorem block_scope_isolation_witness :
    (dslRuleHandler applyHost (.literal 3 (.num 42))
        (.assignment 2 "x" (.literal 3 (.num 42)))
        (assignB [("p", some (.num 1))] [])).value = some (.num 42) ∧
    ((dslRuleHandler applyHost (.block 0 [] []) (.other 9)
        [("p", some (.num 1))]).bindings = [("p", some (.num 1))] ∧
     (∀ nm, lookupB (dslRuleHandler applyHost (.block 0 [] []) (.other 9)
         [("p", some (.num 1))]).bindings nm
       = lookupB [("p", some (.num 1))] nm) ∧
     (dslRuleHandler applyHost
         (.block 0 [.assignment 2 "x" (.literal 3 (.num 42)),
           .identifier 4 "x"] []) (.other 9)
         [("p", some (.num 1))]).value = some (.num 42)) :=
  ⟨by simp [dslRuleHandler, dslStep, catchRes, literalRuleHandler, assignB],
   block_scope_isolation applyHost 0 2 4 "x" [] [] (.literal 3 (.num 42))
    (.other 9) [("p", some (.num 1))] (.num 42)
    (by simp [dslRuleHandler, dslStep, catchRes, literalRuleHandler, assignB])⟩

/-- C7: for a Function node whose callee name resolves (in the bindings as
they stand after argument evaluation) to a host operation, every argument is
evaluated through the dispatcher, left to right, threading the same scope
(the produced sequence has one entry per argument — third conjunct, and is
exactly the sequential child evaluation — used in the hypotheses), and the
operation is applied to exactly the first two evaluated arguments, missing
positions passed as undefined; its result is the node's result. -/
theorem function_applies_first_two_args (i : Nat) (callee : DslNode Op)
    (args : List (DslNode Op)) (pN : DslNode Op) (b : Bindings Op)
    (f : Op) (v : Option (Value Op))
    (hf : lookupName
        (executeCalleeAndArgs applyOp (.function i callee args) args b).1
        callee.nameField = some (.op f))
    (happ : applyOp f
        ((childValues applyOp (.function i callee args) args b).getD 0 none)
        ((childValues applyOp (.function i callee args) args b).getD 1 none)
      = .ok v) :
    dslRuleHandler applyOp (.function i callee args) pN b =
      ⟨(executeCalleeAndArgs applyOp (.function i callee args) args b).1,
       (executeCalleeAndArgs applyOp (.function i callee args) args b).2.1,
       v⟩ ∧
    (childValues applyOp (.function i callee args) args b).length
      = args.length := by
  refine ⟨?_, childValues_length applyOp _ args b⟩
  rw [dslRuleHandler_def]
  simp only [dslStep, hf, executeCalleeAndArgs_vals]
  rw [happ]
  simp [catchRes]

/-- Witness for C7: calling add on three arguments 1, 2, 9 applies the
operation to the first two only, giving 3; all three arguments were
evaluated. -/
theorem function_applies_first_two_args_witness :
    lookupName
      (executeCalleeAndArgs applyHost
        (.function 20 (.identifier 21 "add")
          [.literal 22 (.num 1), .literal 23 (.num 2), .literal 24 (.num 9)])
        [.literal 22 (.num 1), .literal 23 (.num 2), .literal 24 (.num 9)]
        [("add", some (.op .add))]).1
      (DslNode.identifier 21 "add" : DslNode HostOp).nameField
      = some (.op .add) ∧
    applyHost .add
      ((childValues applyHost
        (.function 20 (.identifier 21 "add")
          [.literal 22 (.num 1), .literal 23 (.num 2), .literal 24 (.num 9)])
        [.literal 22 (.num 1), .literal 23 (.num 2), .literal 24 (.num 9)]
        [("add", some (.op .add))]).getD 0 none)
      ((childValues applyHost
        (.function 20 (.identifier 21 "add")
          [.literal 22 (.num 1), .literal 23 (.num 2), .literal 24 (.num 9)])
        [.literal 22 (.num 1), .literal 23 (.num 2), .literal 24 (.num 9)]
        [("add", some (.op .add))]).getD 1 none)
      = .ok (some (.num 3)) ∧
    (dslRuleHandler applyHost
        (.function 20 (.identifier 21 "add")
          [.literal 22 (.num 1), .literal 23 (.num 2), .literal 24 (.num 9)])
        (.other 0) [("add", some (.op .add))] =
      ⟨(executeCalleeAndArgs applyHost
          (.function 20 (.identifier 21 "add")
            [.literal 22 (.num 1), .literal 23 (.num 2), .literal 24 (.num 9)])
          [.literal 22 (.num 1), .literal 23 (.num 2), .literal 24 (.num 9)]
          [("add", some (.op .add))]).1,
       (executeCalleeAndArgs applyHost
          (.function 20 (.identifier 21 "add")
            [.literal 22 (.num 1), .literal 23 (.num 2), .literal 24 (.num 9)])
          [.literal 22 (.num 1), .literal 23 (.num 2), .literal 24 (.num 9)]
          [("add", some (.op .add))]).2.1,
       some (.num 3)⟩ ∧
     (childValues applyHost
        (.function 20 (.identifier 21 "add")
          [.literal 22 (.num 1), .literal 23 (.num 2), .literal 24 (.num 9)])
        [.literal 22 (.num 1), .literal 23 (.num 2), .literal 24 (.num 9)]
        [("add", some (.op .add))]).length
      = ([.literal 22 (.num 1), .literal 23 (.num 2),
          .literal 24 (.num 9)] : List (DslNode HostOp)).length) :=
  ⟨by simp [executeCalleeAndArgs, dslStep, catchRes, literalRuleHandler,
      lookupName, lookupB, DslNode.nameField],
   by simp [childValues, dslRuleHandler, dslStep, catchRes,
      literalRuleHandler, applyHost],
   function_applies_first_two_args applyHost 20 (.identifier 21 "add")
    [.literal 22 (.num 1), .literal 23 (.num 2), .literal 24 (.num 9)]
    (.other 0) [("add", some (.op .add))] .add (some (.num 3))
    (by simp [executeCalleeAndArgs, dslStep, catchRes, literalRuleHandler,
      lookupName, lookupB, DslNode.nameField])
    (by simp [childValues, dslRuleHandler, dslStep, catchRes,
      literalRuleHandler, applyHost])⟩

/-- C8: for a Function node whose callee name does not resolve to an
invocable (host-operation) value in the bindings as they stand after
argument evaluation, the handler throws NotAFunction without ever applying
an operation: the dispatcher logs the diagnostic and the node contributes
no value. -/
theorem function_not_a_function (i : Nat) (callee : DslNode Op)
    (args : List (DslNode Op)) (pN : DslNode Op) (b : Bindings Op)
    (hnf : isOpVal (lookupName
        (executeCalleeAndArgs applyOp (.function i callee args) args b).1
        callee.nameField) = false) :
    dslRuleHandler applyOp (.function i callee args) pN b =
      ⟨(executeCalleeAndArgs applyOp (.function i callee args) args b).1,
       (executeCalleeAndArgs applyOp (.function i callee args) args b).2.1
         ++ [notFunctionMsg i],
       none⟩ := by
  rw [dslRuleHandler_def]
  simp only [dslStep]
  cases hl : lookupName
      (executeCalleeAndArgs applyOp (.function i callee args) args b).1
      callee.nameField with
  | none => simp [hl, catchRes]
  | some w =>
      cases w with
      | op f =>
          rw [hl] at hnf
          simp [isOpVal] at hnf
      | num n => simp [hl, catchRes]
      | str s => simp [hl, catchRes]
      | list l => simp [hl, catchRes]

/-- Witness for C8: a call whose callee mul is unbound fails with
NotAFunction, logging the diagnostic and producing no value. -/
theorem function_not_a_function_witness :
    isOpVal
      (lookupName
        (executeCalleeAndArgs applyHost
          (.function 30 (.identifier 31 "mul") [.literal 32 (.num 1)])
          [.literal 32 (.num 1)] []).1
        (DslNode.identifier 31 "mul" : DslNode HostOp).nameField) = false ∧
    dslRuleHandler applyHost
        (.function 30 (.identifier 31 "mul") [.literal 32 (.num 1)])
        (.other 0) [] =
      ⟨(executeCalleeAndArgs applyHost
          (.function 30 (.identifier 31 "mul") [.literal 32 (.num 1)])
          [.literal 32 (.num 1)] []).1,
       (executeCalleeAndArgs applyHost
          (.function 30 (.identifier 31 "mul") [.literal 32 (.num 1)])
          [.literal 32 (.num 1)] []).2.1 ++ [notFunctionMsg 30],
       none⟩ :=
  ⟨by simp [executeCalleeAndArgs, dslStep, catchRes, literalRuleHandler,
      lookupName, lookupB, DslNode.nameField, isOpVal],
   function_not_a_function applyHost 30 (.identifier 31 "mul")
    [.literal 32 (.num 1)] (.other 0) []
    (by simp [executeCalleeAndArgs, dslStep, catchRes, literalRuleHandler,
      lookupName, lookupB, DslNode.nameField, isOpVal])⟩

/-- C10: the no-value marker is the host undefined, so a value equal to
undefined is indistinguishable from NoValue: an Identifier whose name is
explicitly bound to undefined resolves to NoValue exactly as if unbound
(first conjunct); an Assignment whose right-hand side evaluated to undefined
adds no binding, leaving the scope exactly as the right-hand side evaluation
left it (second conjunct); and a requested top-level node whose evaluated
value is undefined — for example a call to a host operation returning
undefined — is silently omitted from the output mapping of run (third
conjunct). -/
theorem undefined_marker_indistinguishable
    (i₁ : Nat) (nm₁ : String) (tl : Bindings Op) (p₁ : DslNode Op)
    (i₂ : Nat) (nm₂ : String) (rhs p₂ : DslNode Op) (b₂ : Bindings Op)
    (nd : DslNode Op) (bs : Bindings Op) (ids : List Nat)
    (hp₂ : p₂.isBlock = true)
    (h₂ : (dslRuleHandler applyOp rhs (.assignment i₂ nm₂ rhs) b₂).value
      = none)
    (h₃ : (dslRuleHandler applyOp nd (Ast.asNode ⟨[nd], bs⟩) bs).value
      = none) :
    (dslRuleHandler applyOp (.identifier i₁ nm₁) p₁
        ((nm₁, none) :: tl)).value = none ∧
    (dslRuleHandler applyOp (.assignment i₂ nm₂ rhs) p₂ b₂).bindings =
      (dslRuleHandler applyOp rhs (.assignment i₂ nm₂ rhs) b₂).bindings ∧
    (run applyOp ⟨[nd], bs⟩ ids).1 = [] := by
  refine ⟨?_, ?_, ?_⟩
  · rw [dslRuleHandler_identifier]
    simp [lookupB]
  · rw [dslRuleHandler_assignment applyOp i₂ nm₂ rhs p₂ b₂ hp₂]
    cases h : dslRuleHandler applyOp rhs (.assignment i₂ nm₂ rhs) b₂ with
    | mk bb log w =>
        have hw : w = none := by rw [h] at h₂; exact h₂
        subst hw
        rfl
  · simp only [run, runNodes, Ast.asNode] at h₃ ⊢
    rw [h₃]
    simp [runNodes]

/-- Witness for C10: an Identifier u explicitly bound to undefined resolves
to NoValue; an Assignment whose right-hand side is a failing literal adds no
binding; and a requested call to the host operation undef (which returns
undefined) is omitted from the output of run. -/
theorem undefined_marker_indistinguishable_witness :
    (DslNode.block 9 [] [] : DslNode HostOp).isBlock = true ∧
    (dslRuleHandler applyHost (.literal 42 (.str "x"))
        (.assignment 41 "w" (.literal 42 (.str "x")))
        [("q", some (.num 2))]).value = none ∧
    (dslRuleHandler applyHost (.function 43 (.identifier 44 "u") [])
        (Ast.asNode ⟨[.function 43 (.identifier 44 "u") []],
          [("u", some (.op .undef))]⟩)
        [("u", some (.op .undef))]).value = none ∧
    ((dslRuleHandler applyHost (.identifier 40 "u") (.other 0)
        (("u", none) :: [("z", some (.num 1))])).value = none ∧
     (dslRuleHandler applyHost
         (.assignment 41 "w" (.literal 42 (.str "x")))
         (.block 9 [] []) [("q", some (.num 2))]).bindings =
       (dslRuleHandler applyHost (.literal 42 (.str "x"))
         (.assignment 41 "w" (.literal 42 (.str "x")))
         [("q", some (.num 2))]).bindings ∧
     (run applyHost ⟨[.function 43 (.identifier 44 "u") []],
        [("u", some (.op .undef))]⟩ [43]).1 = []) :=
  ⟨rfl,
   by simp [dslRuleHandler, dslStep, catchRes, literalRuleHandler],
   by simp [dslRuleHandler, dslStep, catchRes, executeCalleeAndArgs,
      lookupName, lookupB, DslNode.nameField, applyHost],
   undefined_marker_indistinguishable applyHost 40 "u"
    [("z", some (.num 1))] (.other 0) 41 "w" (.literal 42 (.str "x"))
    (.block 9 [] []) [("q", some (.num 2))]
    (.function 43 (.identifier 44 "u") []) [("u", some (.op .undef))] [43]
    rfl
    (by simp [dslRuleHandler, dslStep, catchRes, literalRuleHandler])
    (by simp [dslRuleHandler, dslStep, catchRes, executeCalleeAndArgs,
      lookupName, lookupB, DslNode.nameField, applyHost])⟩

end Theorems

end DslRunner
